import Mathlib

/-!
Verification development for the auto-clicker core (src/auto_clicker.py).

The embedding models the classes that the checked properties are about:

* `StatisticsTracker` — the fields `click_count` and `start_time` are the
  `clickCount` and `statStarted` fields of `Sys`; `start` and `increment`
  are folded into the operations that call them.
* `DesktopMonitor.is_on_active_desktop` — `is_on_active_desktop` below,
  a pure function of a `GateEnv` describing what the platform calls
  observe or raise during one query.
* `ClickController` — the fields `running`, `paused`, `stop_event`,
  `pause_event` are fields of `Sys`; the loop-local variable
  `actual_click_count` is `actualClicks`; the thread body `_click_loop`
  becomes a small-step function `loopStep` driven by a program counter
  `LoopPC` marking the suspension points of the Python loop (top of the
  while, the `pause_event.wait()` block, the `stop_event.wait(interval)`
  block, and termination).  The counters `tickCalls` and `autoStopCalls`
  record how often `update_callback` and `auto_stop_callback` were invoked
  in the current run.
* The GUI validation in `AutoClickerGUI._start_clicking` becomes
  `gui_start_clicking` (interval and max-click checks before the
  controller is touched).

An `Event` is either one scheduler step of the loop thread (with the
per-tick environment: what the gate observes, whether `pyautogui.click`
raises) or one call of a public controller operation; `run` folds a list
of events from a state.
-/

set_option autoImplicit false

namespace AutoClicker

/-- Outcome of the inner `CGWindowListCopyWindowInfo` probe inside
`is_on_active_desktop`: either it returned and the scan of the window list
computed `has_onscreen_window`, or it raised and the fallback re-reads
`winfo_viewable()` (the value the fallback sees is `viewableAtFallback`). -/
inductive ProbeResult where
  | ok (hasOnscreenWindow : Bool)
  | probeRaised (viewableAtFallback : Bool)
  deriving DecidableEq, Repr

/-- What one call of `DesktopMonitor.is_on_active_desktop` observes:
no macOS support at all, the outer `try` raising (in `root.state()` or
`winfo_viewable()`), or the outer checks succeeding with the given
`iconic`/`viewable` observations and inner probe outcome. -/
inductive GateEnv where
  | noMacSupport
  | outerRaised
  | outerOk (iconic : Bool) (viewable : Bool) (probe : ProbeResult)
  deriving DecidableEq, Repr

/-- Embedding of `DesktopMonitor.is_on_active_desktop`
(src/auto_clicker.py lines 105-167). -/
def is_on_active_desktop : GateEnv → Bool
  | .noMacSupport => true
  | .outerRaised => true
  | .outerOk iconic viewable probe =>
    if iconic then false
    else if !viewable then false
    else
      match probe with
      | .ok b => b
      | .probeRaised v2 => v2 && !iconic

/-- Program counter of the `_click_loop` thread: top of the `while`
(condition check), blocked in `pause_event.wait()`, blocked in
`stop_event.wait(interval)`, or exited (after the final
`self.running = False`).  `done` also stands for "no thread running". -/
inductive LoopPC where
  | checkCond
  | pauseWait
  | intervalWait
  | done
  deriving DecidableEq, Repr

/-- Combined state of `ClickController` and its `StatisticsTracker`,
plus the loop-local `actual_click_count` and the per-run callback
counters. -/
structure Sys where
  running : Bool
  paused : Bool
  stopEvent : Bool
  pauseEvent : Bool
  clickCount : Nat
  statStarted : Bool
  maxClicks : Int
  actualClicks : Nat
  tickCalls : Nat
  autoStopCalls : Nat
  pc : LoopPC
  deriving DecidableEq, Repr

/-- The controller as constructed: not running, events cleared, statistics
zeroed, no loop thread. -/
def initState : Sys where
  running := false
  paused := false
  stopEvent := false
  pauseEvent := false
  clickCount := 0
  statStarted := false
  maxClicks := 0
  actualClicks := 0
  tickCalls := 0
  autoStopCalls := 0
  pc := .done

/-- Per-tick environment of one loop step: what the desktop monitor query
observes this tick and whether `pyautogui.click` raises this tick. -/
structure TickEnv where
  gate : GateEnv
  clickRaises : Bool
  deriving DecidableEq, Repr

/-- `should_click` as computed at the top of the `try` block of
`_click_loop`: `True` when no monitor was injected, otherwise the result
of `is_on_active_desktop`. -/
def shouldClick (hasMonitor : Bool) (e : TickEnv) : Bool :=
  if hasMonitor then is_on_active_desktop e.gate else true

/-- Loop exit: a `break` (or falling out of the `while`) followed by the
trailing `self.running = False` on line 307. -/
def exitLoop (s : Sys) : Sys :=
  { s with running := false, pc := .done }

/-- The body of the `try` block of `_click_loop` (lines 271-301), up to
but not including the interval wait: gate query, conditional click with
statistics increment and `update_callback`, and the auto-stop quota
check.  A raising click lands in the `except` handler, which breaks. -/
def execBody (hasMonitor : Bool) (s : Sys) (e : TickEnv) : Sys :=
  if shouldClick hasMonitor e then
    if e.clickRaises then
      exitLoop s
    else
      let s1 : Sys :=
        { s with
          clickCount := s.clickCount + 1
          actualClicks := s.actualClicks + 1
          tickCalls := s.tickCalls + 1 }
      if 0 < s1.maxClicks ∧ s1.maxClicks ≤ (s1.actualClicks : Int) then
        { s1 with
          running := false
          autoStopCalls := s1.autoStopCalls + 1
          pc := .done }
      else
        { s1 with pc := .intervalWait }
  else
    { s with pc := .intervalWait }

/-- One scheduler step of the `_click_loop` thread (lines 260-307).

* At `checkCond`: evaluate `self.running and not self.stop_event.is_set()`;
  if it holds and `self.paused`, enter `pause_event.wait()`; if it holds
  and not paused, run the body; otherwise exit.
* At `pauseWait`: if `pause_event` is set the wait returns and the loop
  re-checks `self.running` (break when false), then falls into the body;
  if the event is clear the thread stays blocked.
* At `intervalWait`: `stop_event.wait(interval)` returns true (break)
  exactly when the stop event is set at wake time, else `continue`. -/
def loopStep (hasMonitor : Bool) (s : Sys) (e : TickEnv) : Sys :=
  match s.pc with
  | .done => s
  | .checkCond =>
    if s.running && !s.stopEvent then
      if s.paused then
        { s with pc := .pauseWait }
      else
        execBody hasMonitor s e
    else
      exitLoop s
  | .pauseWait =>
    if s.pauseEvent then
      if !s.running then exitLoop s
      else execBody hasMonitor s e
    else
      s
  | .intervalWait =>
    if s.stopEvent then exitLoop s
    else { s with pc := .checkCond }

/-- Embedding of `ClickController.start_clicking` (lines 220-239):
reject when already running, otherwise clear both events, reset the
statistics (`statistics.start()`), remember the quota, and launch the
loop thread at its top with `actual_click_count = 0`. -/
def start_clicking (maxClicks : Int) (s : Sys) : Bool × Sys :=
  if s.running then
    (false, s)
  else
    (true,
      { running := true
        paused := false
        stopEvent := false
        pauseEvent := false
        clickCount := 0
        statStarted := true
        maxClicks := maxClicks
        actualClicks := 0
        tickCalls := 0
        autoStopCalls := 0
        pc := .checkCond })

/-- Embedding of `ClickController.stop_clicking` (lines 241-246). -/
def stop_clicking (s : Sys) : Sys :=
  { s with
    running := false
    paused := false
    stopEvent := true
    pauseEvent := true }

/-- Embedding of `ClickController.toggle_pause` (lines 248-258). -/
def toggle_pause (s : Sys) : Bool × Sys :=
  if !s.running then
    (false, s)
  else
    let p := !s.paused
    (true, { s with paused := p, pauseEvent := !p })

/-- One observable event of the whole system: a scheduler step of the loop
thread, or one call of a public controller operation. -/
inductive Event where
  | loopTick (e : TickEnv)
  | stop
  | togglePause
  | start (maxClicks : Int)
  deriving DecidableEq, Repr

/-- Apply one event to a state. -/
def step (hasMonitor : Bool) (s : Sys) : Event → Sys
  | .loopTick e => loopStep hasMonitor s e
  | .stop => stop_clicking s
  | .togglePause => (toggle_pause s).2
  | .start m => (start_clicking m s).2

/-- Fold a list of events from a state. -/
def run (hasMonitor : Bool) (s : Sys) : List Event → Sys
  | [] => s
  | ev :: evs => run hasMonitor (step hasMonitor s ev) evs

/-- Caller-visible outcome of `AutoClickerGUI._start_clicking`. -/
inductive StartOutcome where
  | invalidInterval
  | invalidMaxClicks
  | started (ok : Bool)
  deriving DecidableEq, Repr

/-- Embedding of the validation in `AutoClickerGUI._start_clicking`
(lines 467-497): reject `interval <= 0`, then `max_clicks < 0`, before
the controller is called; only then call
`ClickController.start_clicking`. -/
def gui_start_clicking (interval : ℚ) (maxClicks : Int) (s : Sys) :
    StartOutcome × Sys :=
  if interval ≤ 0 then
    (.invalidInterval, s)
  else if maxClicks < 0 then
    (.invalidMaxClicks, s)
  else
    let r := start_clicking maxClicks s
    (.started r.1, r.2)

/-- A tick whose gate allows the click and whose click does not raise. -/
def gateAllows (hasMonitor : Bool) (e : TickEnv) : Prop :=
  shouldClick hasMonitor e = true ∧ e.clickRaises = false

instance (hasMonitor : Bool) (e : TickEnv) : Decidable (gateAllows hasMonitor e) :=
  inferInstanceAs (Decidable (_ ∧ _))

/-- A benign tick environment: the monitor reports the window on screen
and the click succeeds. -/
def benignEnv : TickEnv where
  gate := .outerOk false true (.ok true)
  clickRaises := false

/-- Mid-run shape of the state with `k` clicks performed, the loop at the
top of the `while`, quota `q`, and no stop or pause requested. -/
def midRun (q k : Nat) (s : Sys) : Prop :=
  s.running = true ∧ s.paused = false ∧ s.stopEvent = false ∧
  s.pauseEvent = false ∧ s.pc = .checkCond ∧ s.actualClicks = k ∧
  s.clickCount = k ∧ s.tickCalls = k ∧ s.autoStopCalls = 0 ∧
  s.maxClicks = (q : Int)

/-- Same as `midRun` but with the loop blocked in the interval wait. -/
def midRunWait (q k : Nat) (s : Sys) : Prop :=
  s.running = true ∧ s.paused = false ∧ s.stopEvent = false ∧
  s.pauseEvent = false ∧ s.pc = .intervalWait ∧ s.actualClicks = k ∧
  s.clickCount = k ∧ s.tickCalls = k ∧ s.autoStopCalls = 0 ∧
  s.maxClicks = (q : Int)

/-- Final shape of a run that ended through the quota branch: `q` clicks
performed and reported, the auto-stop callback fired once, controller
idle, loop thread gone. -/
def quotaDone (q : Nat) (s : Sys) : Prop :=
  s.clickCount = q ∧ s.tickCalls = q ∧ s.autoStopCalls = 1 ∧
  s.running = false ∧ s.pc = .done

/-! ## Helper lemmas -/

/-- A scheduler step of the loop thread never touches the quota, the stop
event, the pause flag, the pause event, or the statistics start flag:
those are written only by the public operations. -/
theorem loopStep_fixed_fields (hm : Bool) (s : Sys) (e : TickEnv) :
    (loopStep hm s e).maxClicks = s.maxClicks ∧
    (loopStep hm s e).stopEvent = s.stopEvent ∧
    (loopStep hm s e).paused = s.paused ∧
    (loopStep hm s e).pauseEvent = s.pauseEvent ∧
    (loopStep hm s e).statStarted = s.statStarted := by
  obtain ⟨ru, pa, se, pe, cc, st, mc, ac, tc, asc, pc⟩ := s
  cases pc <;>
    simp only [loopStep, execBody, exitLoop] <;>
    (try split_ifs) <;> simp

/-- A loop step from a state whose thread has exited changes nothing. -/
theorem loopStep_done (hm : Bool) (s : Sys) (e : TickEnv)
    (hpc : s.pc = .done) : loopStep hm s e = s := by
  simp [loopStep, hpc]

/-- Loop steps from a state whose thread has exited change nothing. -/
theorem run_done_fixed (hm : Bool) (s : Sys) (hpc : s.pc = .done) :
    ∀ envs : List TickEnv, run hm s (envs.map Event.loopTick) = s := by
  intro envs
  induction envs with
  | nil => rfl
  | cons e envs ih =>
    simpa [run, step, loopStep_done hm s e hpc] using ih

/-! ## Claim theorems -/

/-- Claim C2: calling Start while a run is already active returns false
and has no effect at all; otherwise Start resets the statistics
(clickCount to 0, start instant set), transitions to Running, launches
the loop thread at its top, and returns true. -/
theorem start_twice_rejected (m : Int) (s : Sys) :
    (s.running = true → start_clicking m s = (false, s)) ∧
    (s.running = false →
      (start_clicking m s).1 = true ∧
      (start_clicking m s).2.running = true ∧
      (start_clicking m s).2.paused = false ∧
      (start_clicking m s).2.clickCount = 0 ∧
      (start_clicking m s).2.statStarted = true ∧
      (start_clicking m s).2.maxClicks = m ∧
      (start_clicking m s).2.pc = .checkCond) := by
  constructor
  · intro h
    simp [start_clicking, h]
  · intro h
    simp [start_clicking, h]

/-- Witness for `start_twice_rejected`: a second Start on an active
controller returns false and leaves the state untouched, while the first
Start on the idle controller succeeded. -/
theorem start_twice_rejected_witness :
    start_clicking 7 (start_clicking 5 initState).2
      = (false, (start_clicking 5 initState).2) ∧
    (start_clicking 5 initState).1 = true := by
  refine ⟨(start_twice_rejected 7 (start_clicking 5 initState).2).1 (by decide), ?_⟩
  have h := (start_twice_rejected 5 initState).2 (by decide)
  exact h.1

/-- Claim C4: a raising click action terminates the run: the loop exits,
the controller becomes idle, the auto-stop callback does not fire, and
clickCount is unchanged — observably distinct from quota termination. -/
theorem click_error_terminates_run (hm : Bool) (s : Sys) (e : TickEnv)
    (hrun : s.running = true) (hstop : s.stopEvent = false)
    (hpause : s.paused = false) (hpc : s.pc = .checkCond)
    (hgate : shouldClick hm e = true) (hraise : e.clickRaises = true) :
    (loopStep hm s e).running = false ∧
    (loopStep hm s e).pc = .done ∧
    (loopStep hm s e).autoStopCalls = s.autoStopCalls ∧
    (loopStep hm s e).clickCount = s.clickCount := by
  simp [loopStep, hpc, hrun, hstop, hpause, execBody, hgate, hraise, exitLoop]

/-- Witness for `click_error_terminates_run`, at a freshly started
unbounded run whose first click raises. -/
theorem click_error_terminates_run_witness :
    (loopStep false (start_clicking 0 initState).2
      { gate := .noMacSupport, clickRaises := true }).running = false ∧
    (loopStep false (start_clicking 0 initState).2
      { gate := .noMacSupport, clickRaises := true }).pc = .done ∧
    (loopStep false (start_clicking 0 initState).2
      { gate := .noMacSupport, clickRaises := true }).autoStopCalls
      = (start_clicking 0 initState).2.autoStopCalls ∧
    (loopStep false (start_clicking 0 initState).2
      { gate := .noMacSupport, clickRaises := true }).clickCount
      = (start_clicking 0 initState).2.clickCount :=
  click_error_terminates_run false (start_clicking 0 initState).2
    { gate := .noMacSupport, clickRaises := true }
    (by decide) (by decide) (by decide) (by decide) (by decide) (by decide)

/-- Claim C5: the GUI Start path rejects a non-positive interval and a
negative click quota before the controller is touched: the rejection is
caller-visible through the outcome and the state is returned unchanged. -/
theorem start_validation_no_mutation (interval : ℚ) (m : Int) (s : Sys) :
    (interval ≤ 0 →
      gui_start_clicking interval m s = (.invalidInterval, s)) ∧
    (0 < interval → m < 0 →
      gui_start_clicking interval m s = (.invalidMaxClicks, s)) := by
  constructor
  · intro h
    simp [gui_start_clicking, h]
  · intro h1 h2
    simp [gui_start_clicking, not_le.mpr h1, h2]

/-- Witness for `start_validation_no_mutation`: interval 0 is rejected as
an invalid interval, and quota -1 with a positive interval is rejected as
an invalid click limit, both without touching the initial state. -/
theorem start_validation_no_mutation_witness :
    gui_start_clicking 0 5 initState = (.invalidInterval, initState) ∧
    gui_start_clicking 1 (-1) initState = (.invalidMaxClicks, initState) :=
  ⟨(start_validation_no_mutation 0 5 initState).1 (by norm_num),
   (start_validation_no_mutation 1 (-1) initState).2 (by norm_num) (by norm_num)⟩

/-- Claim C6: a Stop issued while the loop thread is blocked in the pause
wait wakes that wait immediately (the stop sets the pause event) and the
thread exits without an intervening resume: the next scheduler step
reaches the idle, terminated state with clickCount unchanged. -/
theorem stop_while_paused_reaches_idle (hm : Bool) (s : Sys) (e : TickEnv)
    (hrun : s.running = true) (hpause : s.paused = true)
    (hpc : s.pc = .pauseWait) :
    (stop_clicking s).pauseEvent = true ∧
    (loopStep hm (stop_clicking s) e).running = false ∧
    (loopStep hm (stop_clicking s) e).pc = .done ∧
    (loopStep hm (stop_clicking s) e).clickCount = s.clickCount := by
  simp [stop_clicking, loopStep, hpc, exitLoop]

/-- Witness for `stop_while_paused_reaches_idle`: the round trip
Start, TogglePause, one loop step into the pause wait, Stop, one loop
step — ends idle with the thread gone and no clicks. -/
theorem stop_while_paused_reaches_idle_witness :
    (stop_clicking (loopStep false
        (toggle_pause (start_clicking 0 initState).2).2 benignEnv)).pauseEvent
      = true ∧
    (loopStep false (stop_clicking (loopStep false
        (toggle_pause (start_clicking 0 initState).2).2 benignEnv))
        benignEnv).running = false ∧
    (loopStep false (stop_clicking (loopStep false
        (toggle_pause (start_clicking 0 initState).2).2 benignEnv))
        benignEnv).pc = .done ∧
    (loopStep false (stop_clicking (loopStep false
        (toggle_pause (start_clicking 0 initState).2).2 benignEnv))
        benignEnv).clickCount
      = (loopStep false (toggle_pause (start_clicking 0 initState).2).2
          benignEnv).clickCount :=
  stop_while_paused_reaches_idle false
    (loopStep false (toggle_pause (start_clicking 0 initState).2).2 benignEnv)
    benignEnv (by decide) (by decide) (by decide)

/-- With quota 0 the auto-stop branch is unreachable: no scheduler step
of the loop ever fires the auto-stop callback. -/
theorem loopStep_quota_zero_no_autostop (hm : Bool) (s : Sys) (e : TickEnv)
    (h0 : s.maxClicks = 0) :
    (loopStep hm s e).autoStopCalls = s.autoStopCalls := by
  obtain ⟨ru, pa, se, pe, cc, st, mc, ac, tc, asc, pc⟩ := s
  simp only at h0
  subst h0
  cases pc <;>
    simp only [loopStep, execBody, exitLoop] <;>
    (try split_ifs) <;> simp_all

/-- With quota 0, a non-raising loop step from a live, unstopped state
(whose pause flag and pause event are consistent) keeps the run alive. -/
theorem loopStep_quota_zero_keeps_running (hm : Bool) (s : Sys) (e : TickEnv)
    (h0 : s.maxClicks = 0) (he : e.clickRaises = false)
    (hrun : s.running = true) (hstop : s.stopEvent = false)
    (hinv : s.paused = true → s.pauseEvent = false) :
    (loopStep hm s e).running = true := by
  obtain ⟨ru, pa, se, pe, cc, st, mc, ac, tc, asc, pc⟩ := s
  obtain ⟨g, cr⟩ := e
  simp only at h0 he hrun hstop hinv
  subst h0 he hrun hstop
  cases pc <;>
    simp only [loopStep, execBody, exitLoop] <;>
    (try split_ifs) <;> simp_all

/-- Claim C7: for quota 0 (unbounded) the loop never self-terminates via
the quota check: a single loop step never fires the auto-stop callback,
a single non-raising loop step keeps the run alive, and any sequence of
non-raising loop steps keeps the run alive without firing auto-stop —
so only an external Stop can end the run. -/
theorem quota_zero_never_self_stops (hm : Bool) (s : Sys) (e : TickEnv)
    (h0 : s.maxClicks = 0) :
    (loopStep hm s e).autoStopCalls = s.autoStopCalls ∧
    (e.clickRaises = false → s.running = true → s.stopEvent = false →
      (s.paused = true → s.pauseEvent = false) →
      (loopStep hm s e).running = true) ∧
    (∀ envs : List TickEnv, (∀ x ∈ envs, x.clickRaises = false) →
      s.running = true → s.stopEvent = false →
      (s.paused = true → s.pauseEvent = false) →
      (run hm s (envs.map Event.loopTick)).running = true ∧
      (run hm s (envs.map Event.loopTick)).autoStopCalls = s.autoStopCalls) := by
  refine ⟨loopStep_quota_zero_no_autostop hm s e h0,
    fun he hrun hstop hinv =>
      loopStep_quota_zero_keeps_running hm s e h0 he hrun hstop hinv, ?_⟩
  intro envs
  induction envs generalizing s with
  | nil => exact fun _ hrun _ _ => ⟨hrun, rfl⟩
  | cons x envs ih =>
    intro hall hrun hstop hinv
    have hx : x.clickRaises = false := hall x (List.mem_cons_self x envs)
    have hall2 : ∀ y ∈ envs, y.clickRaises = false :=
      fun y hy => hall y (List.mem_cons_of_mem x hy)
    have hf := loopStep_fixed_fields hm s x
    have hrun2 : (loopStep hm s x).running = true :=
      loopStep_quota_zero_keeps_running hm s x h0 hx hrun hstop hinv
    have hstop2 : (loopStep hm s x).stopEvent = false := by
      rw [hf.2.1]; exact hstop
    have hinv2 : (loopStep hm s x).paused = true →
        (loopStep hm s x).pauseEvent = false := by
      rw [hf.2.2.1, hf.2.2.2.1]; exact hinv
    have h02 : (loopStep hm s x).maxClicks = 0 := by
      rw [hf.1]; exact h0
    have := ih (loopStep hm s x) h02 hall2 hrun2 hstop2 hinv2
    refine ⟨?_, ?_⟩
    · simpa [run, step] using this.1
    · have hone := loopStep_quota_zero_no_autostop hm s x h0
      calc (run hm s ((x :: envs).map Event.loopTick)).autoStopCalls
          = (run hm (loopStep hm s x) (envs.map Event.loopTick)).autoStopCalls := by
            simp [run, step]
        _ = (loopStep hm s x).autoStopCalls := this.2
        _ = s.autoStopCalls := hone

/-- Witness for `quota_zero_never_self_stops`: a freshly started
unbounded run survives three benign loop steps with the auto-stop
callback never fired. -/
theorem quota_zero_never_self_stops_witness :
    (loopStep false (start_clicking 0 initState).2 benignEnv).autoStopCalls
      = (start_clicking 0 initState).2.autoStopCalls ∧
    (benignEnv.clickRaises = false →
      (start_clicking 0 initState).2.running = true →
      (start_clicking 0 initState).2.stopEvent = false →
      ((start_clicking 0 initState).2.paused = true →
        (start_clicking 0 initState).2.pauseEvent = false) →
      (loopStep false (start_clicking 0 initState).2 benignEnv).running = true) ∧
    (∀ envs : List TickEnv, (∀ x ∈ envs, x.clickRaises = false) →
      (start_clicking 0 initState).2.running = true →
      (start_clicking 0 initState).2.stopEvent = false →
      ((start_clicking 0 initState).2.paused = true →
        (start_clicking 0 initState).2.pauseEvent = false) →
      (run false (start_clicking 0 initState).2
        (envs.map Event.loopTick)).running = true ∧
      (run false (start_clicking 0 initState).2
        (envs.map Event.loopTick)).autoStopCalls
        = (start_clicking 0 initState).2.autoStopCalls) :=
  quota_zero_never_self_stops false (start_clicking 0 initState).2 benignEnv
    (by decide)

/-- Claim C8: TogglePause on an idle controller returns false and changes
nothing; on a live controller it returns true and flips the pause flag
(setting the pause event exactly on resume); and while paused (with the
pause event consistently clear) a loop step performs no click, so
clickCount does not increase during a paused interval. -/
theorem toggle_pause_contract (hm : Bool) (s : Sys) (e : TickEnv) :
    (s.running = false → toggle_pause s = (false, s)) ∧
    (s.running = true →
      (toggle_pause s).1 = true ∧
      (toggle_pause s).2.paused = !s.paused ∧
      (toggle_pause s).2.pauseEvent = s.paused ∧
      (toggle_pause s).2.running = true ∧
      (toggle_pause s).2.clickCount = s.clickCount) ∧
    (s.paused = true → s.pauseEvent = false →
      (loopStep hm s e).clickCount = s.clickCount) := by
  refine ⟨fun h => by simp [toggle_pause, h], fun h => by simp [toggle_pause, h], ?_⟩
  intro hpause hpe
  obtain ⟨ru, pa, se, pe, cc, st, mc, ac, tc, asc, pc⟩ := s
  simp only at hpause hpe
  subst hpause hpe
  cases pc <;>
    simp only [loopStep, execBody, exitLoop] <;>
    (try split_ifs) <;> simp_all

/-- Witness for `toggle_pause_contract`: TogglePause on the idle initial
state returns false unchanged; on a fresh run it returns true and pauses;
and a loop step of the paused run does not click. -/
theorem toggle_pause_contract_witness :
    toggle_pause initState = (false, initState) ∧
    (toggle_pause (start_clicking 0 initState).2).1 = true ∧
    (loopStep false (toggle_pause (start_clicking 0 initState).2).2
        benignEnv).clickCount
      = (toggle_pause (start_clicking 0 initState).2).2.clickCount := by
  refine ⟨(toggle_pause_contract false initState benignEnv).1 (by decide), ?_, ?_⟩
  · exact ((toggle_pause_contract false (start_clicking 0 initState).2
      benignEnv).2.1 (by decide)).1
  · exact (toggle_pause_contract false
      (toggle_pause (start_clicking 0 initState).2).2 benignEnv).2.2
      (by decide) (by decide)

/-- Claim C9: over states whose pause flag and pause event are consistent
(an invariant established at construction and preserved by every event,
as the last conjunct shows), clickCount strictly increases only on a loop
tick taken while the controller is running, not paused, and the gate
allows the click — and then by exactly one; on every loop tick without
running-unpaused-allowed, clickCount is unchanged. -/
theorem click_count_only_when_allowed (hm : Bool) (s : Sys) (ev : Event)
    (hinv : s.paused = true → s.pauseEvent = false) :
    (s.clickCount < (step hm s ev).clickCount →
      ∃ e, ev = .loopTick e ∧ s.running = true ∧ s.paused = false ∧
        shouldClick hm e = true ∧
        (step hm s ev).clickCount = s.clickCount + 1) ∧
    (∀ e, ev = .loopTick e →
      ¬(s.running = true ∧ s.paused = false ∧ shouldClick hm e = true) →
      (step hm s ev).clickCount = s.clickCount) ∧
    ((step hm s ev).paused = true → (step hm s ev).pauseEvent = false) := by
  obtain ⟨ru, pa, se, pe, cc, st, mc, ac, tc, asc, pc⟩ := s
  simp only at hinv
  cases ev with
  | loopTick e =>
    by_cases hsc : shouldClick hm e = true
    · cases pc <;> cases ru <;> cases pa <;> cases se <;> cases pe <;>
        simp_all [step, loopStep, execBody, exitLoop] <;>
        (try split_ifs) <;> simp_all
    · cases pc <;> cases ru <;> cases pa <;> cases se <;> cases pe <;>
        simp_all [step, loopStep, execBody, exitLoop]
  | stop => simp [step, stop_clicking]
  | togglePause =>
    cases ru <;> cases pa <;> simp_all [step, toggle_pause]
  | start m =>
    cases ru <;> simp_all [step, start_clicking]

/-- Witness for `click_count_only_when_allowed`: at a fresh unbounded run,
a benign loop tick increments clickCount by one and indeed happens
running, unpaused and gate-allowed; a gate-denied tick leaves it
unchanged; the consistency invariant persists. -/
theorem click_count_only_when_allowed_witness :
    ((start_clicking 0 initState).2.clickCount
        < (step false (start_clicking 0 initState).2
            (.loopTick benignEnv)).clickCount →
      ∃ e, Event.loopTick benignEnv = Event.loopTick e ∧
        (start_clicking 0 initState).2.running = true ∧
        (start_clicking 0 initState).2.paused = false ∧
        shouldClick false e = true ∧
        (step false (start_clicking 0 initState).2
          (.loopTick benignEnv)).clickCount
          = (start_clicking 0 initState).2.clickCount + 1) ∧
    (∀ e, Event.loopTick benignEnv = Event.loopTick e →
      ¬((start_clicking 0 initState).2.running = true ∧
        (start_clicking 0 initState).2.paused = false ∧
        shouldClick false e = true) →
      (step false (start_clicking 0 initState).2
        (.loopTick benignEnv)).clickCount
        = (start_clicking 0 initState).2.clickCount) ∧
    ((step false (start_clicking 0 initState).2
        (.loopTick benignEnv)).paused = true →
      (step false (start_clicking 0 initState).2
        (.loopTick benignEnv)).pauseEvent = false) :=
  click_count_only_when_allowed false (start_clicking 0 initState).2
    (.loopTick benignEnv) (by decide)

/-- Claim C3 as stated is false on the code: on a tick whose gate query
suffers a platform probe failure the click IS performed.  With macOS
support, a non-iconic viewable window and a raising
CGWindowListCopyWindowInfo probe, the gate returns true (the fallback
viewability check), a raising outer check even returns true directly,
and the loop step performs the click: clickCount goes from 0 to 1. -/
theorem gate_error_fail_closed_counterexample :
    is_on_active_desktop (.outerOk false true (.probeRaised true)) = true ∧
    is_on_active_desktop .outerRaised = true ∧
    (start_clicking 0 initState).2.clickCount = 0 ∧
    (loopStep true (start_clicking 0 initState).2
      { gate := .outerOk false true (.probeRaised true),
        clickRaises := false }).clickCount = 1 := by
  decide

/-- Amended claim C3: gate-query errors are swallowed inside the gate and
mapped fail-open, not fail-closed — an error in the outer window-state
checks yields allowed (true), and a probe error falls back to the
re-read window viewability — so a click is performed on such a tick
whenever the fallback allows it; in either case the error never
terminates the run: the loop continues to the interval wait with the run
still alive. -/
theorem gate_error_fail_open (s : Sys) (e : TickEnv) (v2 : Bool)
    (hrun : s.running = true) (hstop : s.stopEvent = false)
    (hpause : s.paused = false) (hpc : s.pc = .checkCond)
    (hraise : e.clickRaises = false) (h0 : s.maxClicks = 0) :
    is_on_active_desktop .outerRaised = true ∧
    is_on_active_desktop (.outerOk false true (.probeRaised v2)) = v2 ∧
    (loopStep true s e).running = true ∧
    (loopStep true s e).pc = .intervalWait := by
  refine ⟨rfl, by simp [is_on_active_desktop], ?_⟩
  obtain ⟨ru, pa, se, pe, cc, st, mc, ac, tc, asc, pc⟩ := s
  obtain ⟨g, cr⟩ := e
  simp only at hrun hstop hpause hpc hraise h0
  subst hrun hstop hpause hpc hraise h0
  simp only [loopStep, execBody, exitLoop] <;> (try split_ifs) <;> simp_all

/-- Witness for `gate_error_fail_open`, at a fresh unbounded run with a
probe-raising gate environment. -/
theorem gate_error_fail_open_witness :
    is_on_active_desktop .outerRaised = true ∧
    is_on_active_desktop (.outerOk false true (.probeRaised true)) = true ∧
    (loopStep true (start_clicking 0 initState).2
      { gate := .outerOk false true (.probeRaised true),
        clickRaises := false }).running = true ∧
    (loopStep true (start_clicking 0 initState).2
      { gate := .outerOk false true (.probeRaised true),
        clickRaises := false }).pc = .intervalWait :=
  gate_error_fail_open (start_clicking 0 initState).2
    { gate := .outerOk false true (.probeRaised true), clickRaises := false }
    true (by decide) (by decide) (by decide) (by decide) (by decide) (by decide)

/-- One allowed body step short of the quota: the loop clicks and moves
into the interval wait with one more click on every counter. -/
theorem body_step_next (hm : Bool) (q k : Nat) (s : Sys) (e : TickEnv)
    (hmid : midRun q k s) (he : gateAllows hm e) (hlt : k + 1 < q) :
    midRunWait q (k + 1) (loopStep hm s e) := by
  obtain ⟨hrun, hpa, hse, hpe, hpc, hac, hcc, htc, hasc, hmc⟩ := hmid
  obtain ⟨hsc, hcr⟩ := he
  obtain ⟨ru, pa, se, pe, cc, st, mc, ac, tc, asc, pc⟩ := s
  obtain ⟨g, cr⟩ := e
  simp only at hrun hpa hse hpe hpc hac hcc htc hasc hmc hsc hcr
  subst hrun hpa hse hpe hpc hac hcc htc hasc hmc hcr
  simp_all [loopStep, execBody, midRunWait]
  split_ifs with hcond
  · exfalso
    omega
  · simp

/-- The allowed body step that reaches the quota: the loop clicks, trips
the auto-stop branch, fires the callback and terminates. -/
theorem body_step_quota (hm : Bool) (q k : Nat) (s : Sys) (e : TickEnv)
    (hmid : midRun q k s) (he : gateAllows hm e) (heq : k + 1 = q) :
    quotaDone q (loopStep hm s e) := by
  obtain ⟨hrun, hpa, hse, hpe, hpc, hac, hcc, htc, hasc, hmc⟩ := hmid
  obtain ⟨hsc, hcr⟩ := he
  obtain ⟨ru, pa, se, pe, cc, st, mc, ac, tc, asc, pc⟩ := s
  obtain ⟨g, cr⟩ := e
  simp only at hrun hpa hse hpe hpc hac hcc htc hasc hmc hsc hcr
  subst hrun hpa hse hpe hpc hac hcc htc hasc hmc hcr
  simp_all [loopStep, execBody, quotaDone]
  split_ifs with hcond
  · simp
  · exfalso
    push_neg at hcond
    omega

/-- An unsignalled interval wait times out and the loop returns to the
top of the while with every counter intact. -/
theorem wait_step_next (hm : Bool) (q k : Nat) (s : Sys) (e : TickEnv)
    (hmid : midRunWait q k s) : midRun q k (loopStep hm s e) := by
  obtain ⟨hrun, hpa, hse, hpe, hpc, hac, hcc, htc, hasc, hmc⟩ := hmid
  obtain ⟨ru, pa, se, pe, cc, st, mc, ac, tc, asc, pc⟩ := s
  simp only at hrun hpa hse hpe hpc hac hcc htc hasc hmc
  subst hrun hpa hse hpe hpc hac hcc htc hasc hmc
  simp_all [loopStep, midRun]

/-- Main induction for the quota run: from a mid-run state that still has
`m > 0` clicks to go, a sequence of `2 * m - 1` gate-allowed loop steps
(body, wait, body, wait, ..., body) reaches the quota-terminated state. -/
theorem run_to_quota (hm : Bool) :
    ∀ (m q k : Nat) (s : Sys) (envs : List TickEnv), q = k + m → 0 < m →
      midRun q k s → (∀ e ∈ envs, gateAllows hm e) →
      envs.length = 2 * m - 1 →
      quotaDone q (run hm s (envs.map Event.loopTick)) := by
  intro m
  induction m with
  | zero => intro q k s envs hq hm0; exact absurd hm0 (by omega)
  | succ m ih =>
    intro q k s envs hq hm0 hmid hall hlen
    match envs with
    | [] => exact absurd hlen (by simp; omega)
    | e1 :: rest =>
      have he1 : gateAllows hm e1 := hall e1 (List.mem_cons_self e1 rest)
      cases Nat.eq_zero_or_pos m with
      | inl hzero =>
        subst hzero
        match rest with
        | [] =>
          have : k + 1 = q := by omega
          simpa [run, step] using body_step_quota hm q k s e1 hmid he1 this
        | r :: rs => exact absurd hlen (by simp)
      | inr hpos =>
        match rest with
        | [] => exact absurd hlen (by simp; omega)
        | e2 :: rest2 =>
          have he2 : gateAllows hm e2 := hall e2 (by simp)
          have hall2 : ∀ e ∈ rest2, gateAllows hm e := fun e hmem =>
            hall e (by simp [hmem])
          have hlt : k + 1 < q := by omega
          have hw : midRunWait q (k + 1) (loopStep hm s e1) :=
            body_step_next hm q k s e1 hmid he1 hlt
          have hmid2 : midRun q (k + 1) (loopStep hm (loopStep hm s e1) e2) :=
            wait_step_next hm q (k + 1) (loopStep hm s e1) e2 hw
          have hq2 : q = (k + 1) + m := by omega
          have hlen2 : rest2.length = 2 * m - 1 := by
            simp at hlen
            omega
          simpa [run, step] using
            ih q (k + 1) (loopStep hm (loopStep hm s e1) e2) rest2
              hq2 hpos hmid2 hall2 hlen2

/-- A freshly started run with quota `q` is mid-run with zero clicks. -/
theorem start_midRun (q : Nat) : midRun q 0 (start_clicking (q : Int) initState).2 := by
  simp [midRun, start_clicking, initState]

/-- Claim C1: for every quota greater than zero, a run all of whose ticks
are gate-allowed performs exactly `quota` clicks and then
self-terminates: after the `2 * quota - 1` scheduler steps of the loop
thread (click, wait, click, wait, ..., click) the statistics report
`quota` clicks, the update callback fired `quota` times, the auto-stop
callback fired exactly once, the controller is idle and the thread has
exited — and any further scheduler steps change nothing. -/
theorem quota_run_self_terminates (hm : Bool) (q : Nat) (hq : 0 < q)
    (envs extra : List TickEnv) (hall : ∀ e ∈ envs, gateAllows hm e)
    (hlen : envs.length = 2 * q - 1) :
    quotaDone q (run hm (start_clicking (q : Int) initState).2
      (envs.map Event.loopTick)) ∧
    run hm (run hm (start_clicking (q : Int) initState).2
        (envs.map Event.loopTick)) (extra.map Event.loopTick)
      = run hm (start_clicking (q : Int) initState).2
          (envs.map Event.loopTick) := by
  have hdone : quotaDone q (run hm (start_clicking (q : Int) initState).2
      (envs.map Event.loopTick)) :=
    run_to_quota hm q q 0 (start_clicking (q : Int) initState).2 envs
      (by omega) hq (start_midRun q) hall hlen
  exact ⟨hdone,
    run_done_fixed hm (run hm (start_clicking (q : Int) initState).2
      (envs.map Event.loopTick)) hdone.2.2.2.2 extra⟩

/-- Witness for `quota_run_self_terminates`: quota 2, three benign steps,
then one extra step that changes nothing. -/
theorem quota_run_self_terminates_witness :
    quotaDone 2 (run true (start_clicking ((2 : Nat) : Int) initState).2
      ([benignEnv, benignEnv, benignEnv].map Event.loopTick)) ∧
    run true (run true (start_clicking ((2 : Nat) : Int) initState).2
        ([benignEnv, benignEnv, benignEnv].map Event.loopTick))
        ([benignEnv].map Event.loopTick)
      = run true (start_clicking ((2 : Nat) : Int) initState).2
          ([benignEnv, benignEnv, benignEnv].map Event.loopTick) :=
  quota_run_self_terminates true 2 (by decide)
    [benignEnv, benignEnv, benignEnv] [benignEnv] (by decide) (by decide)

/-- Every event preserves the agreement between the loop-local
`actual_click_count` and the shared `statistics.click_count`: both are
reset together by Start and incremented together by the click branch of
the loop body; nothing else writes either. -/
theorem step_preserves_counter_agreement (hm : Bool) (s : Sys) (ev : Event)
    (h : s.actualClicks = s.clickCount) :
    (step hm s ev).actualClicks = (step hm s ev).clickCount := by
  obtain ⟨ru, pa, se, pe, cc, st, mc, ac, tc, asc, pc⟩ := s
  cases ev with
  | loopTick e =>
    cases pc <;>
      simp_all [step, loopStep, execBody, exitLoop] <;>
      (try split_ifs) <;> simp_all
  | stop => simp_all [step, stop_clicking]
  | togglePause =>
    cases ru <;> simp_all [step, toggle_pause]
  | start m => cases ru <;> simp_all [step, start_clicking]

/-- Claim C10: throughout every event sequence from the initial state,
the loop-local click counter used for the quota check equals the shared
statistics click count, so the quota comparison against the local counter
is equivalent to the quota comparison against `clickCount` that the spec
pseudocode performs. -/
theorem local_counter_refines_statistics (hm : Bool) (evs : List Event) (q : Int) :
    (run hm initState evs).actualClicks = (run hm initState evs).clickCount ∧
    (q ≤ ((run hm initState evs).actualClicks : Int) ↔
      q ≤ ((run hm initState evs).clickCount : Int)) := by
  have key : ∀ (s : Sys), s.actualClicks = s.clickCount →
      (run hm s evs).actualClicks = (run hm s evs).clickCount := by
    induction evs with
    | nil => exact fun s h => h
    | cons ev evs ih =>
      intro s h
      exact ih (step hm s ev) (step_preserves_counter_agreement hm s ev h)
  have h := key initState rfl
  exact ⟨h, by rw [h]⟩

end AutoClicker
